import Mathlib

/-! Verification of the sensor data collector (`sensor_collector.py`).

Shallow embedding conventions:
* A raw serial line is a `String`; tokens are lists of characters
  (Python `str.strip().split()` becomes `splitWs` over `s.data`).
* Python `float(...)` / `int(...)` on whitespace-free tokens are modelled by
  `pyFloat?` / `pyInt?` over exact rationals / integers: the finite decimal
  grammar `[+-]? (digits [. digits*] | . digits+) ([eE][+-]?digits+)?` for
  floats and `[+-]? digits+` for ints.  A failed conversion (Python raising
  `ValueError`) is `none`; the `try/except` wrapper of `parse_sensor_data`
  becomes `Option` plumbing, so the first failing conversion aborts the scan.
* The `sensor_data` dict is `SensorData`, with `none` for an absent key.
* `publish_data` is modelled by the list of (topic, payload) messages it
  sends; the JSON payload `{"value": v, "timestamp": ts, "unit": u}` is the
  record `Payload`.
* `run`/`stop` are modelled by the event trace `run`: per-cycle inputs say
  what line (if any) the serial port yields, the timestamp for that cycle,
  and whether a shutdown request (KeyboardInterrupt, the code's only in-loop
  shutdown path, which triggers `stop()`) arrives at that cycle.
-/

/-- Python `c.isspace()`-style whitespace test used by `str.split()`
(restricted to the ASCII whitespace the serial line can carry). -/
def isWs (c : Char) : Bool := c.isWhitespace

/-- Close the token being accumulated (reversed accumulator), dropping it
when empty, exactly as Python `str.split()` never yields empty tokens. -/
def flushTok (acc : List Char) (rest : List (List Char)) : List (List Char) :=
  if acc.isEmpty then rest else acc.reverse :: rest

/-- Whitespace splitter: `splitWsAux cs acc` scans `cs` with the current
(reversed) token `acc`.  Models Python `data_string.strip().split()`
(the leading `strip()` is redundant: `split()` already drops leading and
trailing whitespace runs). -/
def splitWsAux : List Char → List Char → List (List Char)
  | [], acc => flushTok acc []
  | c :: cs, acc =>
    if isWs c then flushTok acc (splitWsAux cs [])
    else splitWsAux cs (c :: acc)

def splitWs (cs : List Char) : List (List Char) := splitWsAux cs []

/-- The token list of a raw line: `data_string.strip().split()`. -/
def toks (s : String) : List (List Char) := splitWs s.data

/-- Python `tok.startswith(p)` on character lists. -/
def isPfx : List Char → List Char → Bool
  | [], _ => true
  | _ :: _, [] => false
  | p :: ps, c :: cs => p == c && isPfx ps cs

def tempPfx : List Char := [ 'T', 'E', 'M', 'P', ':' ]
def humPfx : List Char := [ 'H', 'U', 'M', ':' ]
def statusPfx : List Char := [ 'S', 'T', 'A', 'T', 'U', 'S', ':' ]

/-- Value of a digit string, most significant first. -/
def digitsVal (l : List Char) : Nat :=
  l.foldl (fun n c => 10 * n + (c.toNat - 48)) 0

/-- Consume an optional leading sign; `true` means negative. -/
def readSign : List Char → Bool × List Char
  | '+' :: cs => (false, cs)
  | '-' :: cs => (true, cs)
  | cs => (false, cs)

/-- Unsigned decimal mantissa: `digits [. digits*]` or `. digits+`
(at least one digit overall), as accepted by Python `float`. -/
def decMantissa (cs : List Char) : Option Rat :=
  let ip := cs.takeWhile Char.isDigit
  let r1 := cs.dropWhile Char.isDigit
  match r1 with
  | [] => if ip.isEmpty then none else some ((digitsVal ip : Nat) : Rat)
  | '.' :: r2 =>
    let fp := r2.takeWhile Char.isDigit
    let r3 := r2.dropWhile Char.isDigit
    if r3.isEmpty && !(ip.isEmpty && fp.isEmpty) then
      some ((digitsVal ip : Rat) + (digitsVal fp : Rat) / ((10 : Rat) ^ fp.length))
    else none
  | _ => none

/-- Model of Python `float(tok)` on a whitespace-free token: optional sign,
decimal mantissa, optional `e`/`E` exponent, with the value taken exactly as
a rational (the claims are about which decoded value flows where, not about
binary rounding).  `none` models a raised `ValueError`. -/
def pyFloat? (cs : List Char) : Option Rat :=
  let sc := readSign cs
  let mant := sc.2.takeWhile (fun c => c != 'e' && c != 'E')
  let rest := sc.2.dropWhile (fun c => c != 'e' && c != 'E')
  let base? : Option Rat :=
    match rest with
    | [] => decMantissa mant
    | _ :: ecs =>
      let se := readSign ecs
      if !se.2.isEmpty && se.2.all Char.isDigit then
        (decMantissa mant).map (fun m =>
          if se.1 then m / ((10 : Rat) ^ digitsVal se.2)
          else m * ((10 : Rat) ^ digitsVal se.2))
      else none
  base?.map (fun m => if sc.1 then -m else m)

/-- Model of Python `int(tok)` on a whitespace-free token: optional sign,
then decimal digits.  `none` models a raised `ValueError`. -/
def pyInt? (cs : List Char) : Option Int :=
  let sc := readSign cs
  if !sc.2.isEmpty && sc.2.all Char.isDigit then
    some (if sc.1 then -(digitsVal sc.2 : Int) else (digitsVal sc.2 : Int))
  else none

/-- The `sensor_data` dict built by `parse_sensor_data`; a missing key is
`none`. -/
structure SensorData where
  temperature : Option Rat := none
  humidity : Option Rat := none
  status : Option Int := none
deriving Repr, DecidableEq

/-- One iteration of the token scan of `parse_sensor_data`: the
`if/elif/elif` prefix dispatch on a token.  A failing conversion yields
`none` (the exception that aborts the whole `try` block); an unrecognized
token leaves the dict unchanged. -/
def applyTok (sd : SensorData) (t : List Char) : Option SensorData :=
  if isPfx tempPfx t then
    (pyFloat? (t.drop 5)).map (fun v => { sd with temperature := some v })
  else if isPfx humPfx t then
    (pyFloat? (t.drop 4)).map (fun v => { sd with humidity := some v })
  else if isPfx statusPfx t then
    (pyInt? (t.drop 7)).map (fun v => { sd with status := some v })
  else
    some sd

/-- The `for part in parts` loop: scans tokens left to right, aborting at
the first failing conversion. -/
def parseLoop : List (List Char) → SensorData → Option SensorData
  | [], sd => some sd
  | t :: ts, sd =>
    match applyTok sd t with
    | some sd1 => parseLoop ts sd1
    | none => none

/-- `parse_sensor_data` after tokenization: run the scan, then return the
dict only when both `temperature` and `humidity` keys are present. -/
def parseTokens (ts : List (List Char)) : Option SensorData :=
  match parseLoop ts {} with
  | some sd => if sd.temperature.isSome && sd.humidity.isSome then some sd else none
  | none => none

/-- `SensorCollector.parse_sensor_data`. -/
def parse_sensor_data (s : String) : Option SensorData :=
  parseTokens (toks s)

def MQTT_TOPIC_TEMP : String := "home/room1/temperature"
def MQTT_TOPIC_HUM : String := "home/room1/humidity"
def MQTT_TOPIC_STATUS : String := "home/room1/status"

/-- The JSON payload `{"value": .., "timestamp": .., "unit": ..}` of a
temperature or humidity message. -/
structure Payload where
  value : Rat
  timestamp : String
  unit : String
deriving Repr, DecidableEq

/-- `SensorCollector.publish_data`, as the list of (topic, payload)
messages it sends.  `stamp` is the single `datetime.now().isoformat()`
captured at entry.  Python accesses `sensor_data['temperature']` first, so a
missing temperature raises before any publish, and a missing humidity
raises after the temperature publish; the `except` swallows the error. -/
def publish_data (sd : SensorData) (stamp : String) : List (String × Payload) :=
  match sd.temperature with
  | none => []
  | some tv =>
    match sd.humidity with
    | none => [(MQTT_TOPIC_TEMP, ⟨tv, stamp, "°C"⟩)]
    | some hv =>
      [(MQTT_TOPIC_TEMP, ⟨tv, stamp, "°C"⟩), (MQTT_TOPIC_HUM, ⟨hv, stamp, "%"⟩)]

/-- Observable actions of one `run()` of the collector. -/
inductive Event where
  | uartOpen : Event
  | mqttConn : Event
  | writeR : Event
  | pubJson : String → Payload → Event
  | pubText : String → String → Event
  | mqttDisc : Event
  | serialClose : Event
deriving Repr, DecidableEq

/-- Environment input for one poll cycle: whether a shutdown request
(KeyboardInterrupt) arrives during this cycle, the line (if any) the serial
buffer holds, and the timestamp `datetime.now()` would yield. -/
structure CycleIn where
  interrupt : Bool
  line : Option String
  stamp : String
deriving Repr, DecidableEq

/-- Events of one uninterrupted cycle body: request a reading, read a line
if available, parse it, and publish on success. -/
def cycleEvents (c : CycleIn) : List Event :=
  Event.writeR ::
    (match c.line with
     | none => []
     | some l =>
       match parse_sensor_data l with
       | none => []
       | some sd => (publish_data sd c.stamp).map (fun m => Event.pubJson m.1 m.2))

/-- Events of `SensorCollector.stop()`: publish `"offline"` to the status
topic, disconnect the MQTT client, then close the serial handle (guarded by
`is_open`, so it closes at most once). -/
def stopEvents : List Event :=
  [Event.pubText MQTT_TOPIC_STATUS "offline", Event.mqttDisc, Event.serialClose]

/-- The `while self.running` loop: each cycle either is cut short by the
shutdown request — the KeyboardInterrupt handler runs `stop()` and `run`
returns — or contributes its cycle events. -/
def pollLoop : List CycleIn → List Event
  | [] => []
  | c :: cs => if c.interrupt then stopEvents else cycleEvents c ++ pollLoop cs

/-- `SensorCollector.run()`: `setup_uart` (aborting on failure before any
MQTT connect is attempted), then `setup_mqtt` (the connect dispatch; on
failure `run` returns without entering the loop), then the poll loop. -/
def run (uartOk mqttOk : Bool) (cs : List CycleIn) : List Event :=
  if uartOk = false then []
  else if mqttOk = false then [Event.uartOpen, Event.mqttConn]
  else Event.uartOpen :: Event.mqttConn :: pollLoop cs

/-! ### Reasoning layer: a total view of the token scan -/

/-- A token is harmless to the scan: either unrecognized, or recognized with
a value that converts without raising. -/
def tokOk (t : List Char) : Bool :=
  if isPfx tempPfx t then (pyFloat? (t.drop 5)).isSome
  else if isPfx humPfx t then (pyFloat? (t.drop 4)).isSome
  else if isPfx statusPfx t then (pyInt? (t.drop 7)).isSome
  else true

/-- Total version of `applyTok`, meaningful on `tokOk` tokens. -/
def applyT (sd : SensorData) (t : List Char) : SensorData :=
  if isPfx tempPfx t then { sd with temperature := pyFloat? (t.drop 5) }
  else if isPfx humPfx t then { sd with humidity := pyFloat? (t.drop 4) }
  else if isPfx statusPfx t then { sd with status := pyInt? (t.drop 7) }
  else sd

/-- Effect of one token on the `temperature` entry. -/
def tempStep (a : Option Rat) (t : List Char) : Option Rat :=
  if isPfx tempPfx t then pyFloat? (t.drop 5) else a

/-- Effect of one token on the `humidity` entry (the `elif` chain tries the
`TEMP:` prefix first). -/
def humStep (a : Option Rat) (t : List Char) : Option Rat :=
  if isPfx tempPfx t then a
  else if isPfx humPfx t then pyFloat? (t.drop 4) else a

/-- Effect of one token on the `status` entry. -/
def statusStep (a : Option Int) (t : List Char) : Option Int :=
  if isPfx tempPfx t then a
  else if isPfx humPfx t then a
  else if isPfx statusPfx t then pyInt? (t.drop 7) else a

theorem applyTok_eq (sd : SensorData) (t : List Char) :
    applyTok sd t = if tokOk t then some (applyT sd t) else none := by
  unfold applyTok tokOk applyT
  split
  · cases h : pyFloat? (t.drop 5) <;> simp [h]
  · split
    · cases h : pyFloat? (t.drop 4) <;> simp [h]
    · split
      · cases h : pyInt? (t.drop 7) <;> simp [h]
      · simp

theorem parseLoop_eq (ts : List (List Char)) (sd : SensorData) :
    parseLoop ts sd = if ts.all tokOk then some (ts.foldl applyT sd) else none := by
  induction ts generalizing sd with
  | nil => simp [parseLoop]
  | cons t ts ih =>
    simp only [parseLoop, applyTok_eq, List.all_cons, List.foldl_cons]
    by_cases h : tokOk t = true
    · simp [h, ih]
    · simp [h, Bool.false_and]

theorem applyT_temperature (sd : SensorData) (t : List Char) :
    (applyT sd t).temperature = tempStep sd.temperature t := by
  unfold applyT tempStep
  split
  · rfl
  · split
    · rfl
    · split <;> rfl

theorem applyT_humidity (sd : SensorData) (t : List Char) :
    (applyT sd t).humidity = humStep sd.humidity t := by
  unfold applyT humStep
  split
  · rfl
  · split
    · rfl
    · split <;> rfl

theorem applyT_status (sd : SensorData) (t : List Char) :
    (applyT sd t).status = statusStep sd.status t := by
  unfold applyT statusStep
  split
  · rfl
  · split
    · rfl
    · split <;> rfl

theorem foldl_applyT_temperature (ts : List (List Char)) (sd : SensorData) :
    (ts.foldl applyT sd).temperature = ts.foldl tempStep sd.temperature := by
  induction ts generalizing sd with
  | nil => rfl
  | cons t ts ih => simp [List.foldl_cons, ih, applyT_temperature]

theorem foldl_applyT_humidity (ts : List (List Char)) (sd : SensorData) :
    (ts.foldl applyT sd).humidity = ts.foldl humStep sd.humidity := by
  induction ts generalizing sd with
  | nil => rfl
  | cons t ts ih => simp [List.foldl_cons, ih, applyT_humidity]

theorem foldl_applyT_status (ts : List (List Char)) (sd : SensorData) :
    (ts.foldl applyT sd).status = ts.foldl statusStep sd.status := by
  induction ts generalizing sd with
  | nil => rfl
  | cons t ts ih => simp [List.foldl_cons, ih, applyT_status]

theorem hum_not_temp (t : List Char) (h : isPfx humPfx t = true) :
    isPfx tempPfx t = false := by
  cases t with
  | nil => simp [isPfx, humPfx] at h
  | cons c cs =>
    simp only [humPfx, tempPfx, isPfx, Bool.and_eq_true, beq_iff_eq] at h ⊢
    rcases h with ⟨rfl, _⟩
    simp

theorem status_not_temp (t : List Char) (h : isPfx statusPfx t = true) :
    isPfx tempPfx t = false := by
  cases t with
  | nil => simp [isPfx, statusPfx] at h
  | cons c cs =>
    simp only [statusPfx, tempPfx, isPfx, Bool.and_eq_true, beq_iff_eq] at h ⊢
    rcases h with ⟨rfl, _⟩
    simp

theorem status_not_hum (t : List Char) (h : isPfx statusPfx t = true) :
    isPfx humPfx t = false := by
  cases t with
  | nil => simp [isPfx, statusPfx] at h
  | cons c cs =>
    simp only [statusPfx, humPfx, isPfx, Bool.and_eq_true, beq_iff_eq] at h ⊢
    rcases h with ⟨rfl, _⟩
    simp

theorem foldl_tempStep_none (ts : List (List Char)) (a : Option Rat)
    (h : ∀ t ∈ ts, isPfx tempPfx t = false) : ts.foldl tempStep a = a := by
  induction ts generalizing a with
  | nil => rfl
  | cons t ts ih =>
    have ht := h t (by simp)
    rw [List.foldl_cons, show tempStep a t = a by simp [tempStep, ht]]
    exact ih a (fun u hu => h u (by simp [hu]))

theorem foldl_humStep_none (ts : List (List Char)) (a : Option Rat)
    (h : ∀ t ∈ ts, isPfx humPfx t = false) : ts.foldl humStep a = a := by
  induction ts generalizing a with
  | nil => rfl
  | cons t ts ih =>
    have ht := h t (by simp)
    rw [List.foldl_cons, show humStep a t = a by simp [humStep, ht]]
    exact ih a (fun u hu => h u (by simp [hu]))

theorem foldl_statusStep_none (ts : List (List Char)) (a : Option Int)
    (h : ∀ t ∈ ts, isPfx statusPfx t = false) : ts.foldl statusStep a = a := by
  induction ts generalizing a with
  | nil => rfl
  | cons t ts ih =>
    have ht := h t (by simp)
    rw [List.foldl_cons, show statusStep a t = a by simp [statusStep, ht]]
    exact ih a (fun u hu => h u (by simp [hu]))

theorem foldl_tempStep_mem (ts : List (List Char)) (a : Option Rat)
    (hex : ∃ t ∈ ts, isPfx tempPfx t = true) :
    ∃ t ∈ ts, isPfx tempPfx t = true ∧ ts.foldl tempStep a = pyFloat? (t.drop 5) := by
  induction ts generalizing a with
  | nil => simp at hex
  | cons u us ih =>
    by_cases hus : ∃ t ∈ us, isPfx tempPfx t = true
    · obtain ⟨t, htmem, htp, heq⟩ := ih (tempStep a u) hus
      exact ⟨t, by simp [htmem], htp, by rw [List.foldl_cons, heq]⟩
    · have hu : isPfx tempPfx u = true := by
        rcases hex with ⟨t, htmem, htp⟩
        rcases List.mem_cons.mp htmem with rfl | hmem
        · exact htp
        · exact absurd ⟨t, hmem, htp⟩ hus
      have hnone : ∀ t ∈ us, isPfx tempPfx t = false := by
        intro t htmem
        by_contra hc
        exact hus ⟨t, htmem, by simpa using hc⟩
      refine ⟨u, by simp, hu, ?_⟩
      rw [List.foldl_cons, foldl_tempStep_none us _ hnone]
      simp [tempStep, hu]

theorem foldl_humStep_mem (ts : List (List Char)) (a : Option Rat)
    (hex : ∃ t ∈ ts, isPfx humPfx t = true) :
    ∃ t ∈ ts, isPfx humPfx t = true ∧ ts.foldl humStep a = pyFloat? (t.drop 4) := by
  induction ts generalizing a with
  | nil => simp at hex
  | cons u us ih =>
    by_cases hus : ∃ t ∈ us, isPfx humPfx t = true
    · obtain ⟨t, htmem, htp, heq⟩ := ih (humStep a u) hus
      exact ⟨t, by simp [htmem], htp, by rw [List.foldl_cons, heq]⟩
    · have hu : isPfx humPfx u = true := by
        rcases hex with ⟨t, htmem, htp⟩
        rcases List.mem_cons.mp htmem with rfl | hmem
        · exact htp
        · exact absurd ⟨t, hmem, htp⟩ hus
      have hnone : ∀ t ∈ us, isPfx humPfx t = false := by
        intro t htmem
        by_contra hc
        exact hus ⟨t, htmem, by simpa using hc⟩
      refine ⟨u, by simp, hu, ?_⟩
      rw [List.foldl_cons, foldl_humStep_none us _ hnone]
      simp [humStep, hu, hum_not_temp u hu]

theorem foldl_statusStep_mem (ts : List (List Char)) (a : Option Int)
    (hex : ∃ t ∈ ts, isPfx statusPfx t = true) :
    ∃ t ∈ ts, isPfx statusPfx t = true ∧ ts.foldl statusStep a = pyInt? (t.drop 7) := by
  induction ts generalizing a with
  | nil => simp at hex
  | cons u us ih =>
    by_cases hus : ∃ t ∈ us, isPfx statusPfx t = true
    · obtain ⟨t, htmem, htp, heq⟩ := ih (statusStep a u) hus
      exact ⟨t, by simp [htmem], htp, by rw [List.foldl_cons, heq]⟩
    · have hu : isPfx statusPfx u = true := by
        rcases hex with ⟨t, htmem, htp⟩
        rcases List.mem_cons.mp htmem with rfl | hmem
        · exact htp
        · exact absurd ⟨t, hmem, htp⟩ hus
      have hnone : ∀ t ∈ us, isPfx statusPfx t = false := by
        intro t htmem
        by_contra hc
        exact hus ⟨t, htmem, by simpa using hc⟩
      refine ⟨u, by simp, hu, ?_⟩
      rw [List.foldl_cons, foldl_statusStep_none us _ hnone]
      simp [statusStep, hu, status_not_temp u hu, status_not_hum u hu]

theorem parseTokens_eq (ts : List (List Char)) :
    parseTokens ts =
      if ts.all tokOk then
        (if ((ts.foldl applyT {}).temperature.isSome && (ts.foldl applyT {}).humidity.isSome)
         then some (ts.foldl applyT {}) else none)
      else none := by
  unfold parseTokens
  rw [parseLoop_eq]
  by_cases h : ts.all tokOk = true <;> simp [h]

/-- C1: for every input line containing a `TEMP:`-token and a `HUM:`-token
in which every recognized-key token decodes successfully,
`parse_sensor_data` returns a Reading whose temperature and humidity are
exactly decoded token values present in the line, regardless of token order
and of intervening unrecognized tokens. -/
theorem C1_parse_exact_values (s : String)
    (htemp : ∃ t ∈ toks s, isPfx tempPfx t = true)
    (hhum : ∃ t ∈ toks s, isPfx humPfx t = true)
    (hok : ∀ t ∈ toks s, tokOk t = true) :
    ∃ tf hf sd,
      (∃ t ∈ toks s, isPfx tempPfx t = true ∧ pyFloat? (t.drop 5) = some tf) ∧
      (∃ t ∈ toks s, isPfx humPfx t = true ∧ pyFloat? (t.drop 4) = some hf) ∧
      parse_sensor_data s = some sd ∧
      sd.temperature = some tf ∧ sd.humidity = some hf := by
  obtain ⟨t, htmem, htp, heqT⟩ := foldl_tempStep_mem (toks s) none htemp
  obtain ⟨u, humem, hup, heqH⟩ := foldl_humStep_mem (toks s) none hhum
  have htok := hok t htmem
  rw [tokOk, if_pos htp] at htok
  obtain ⟨tf, htf⟩ := Option.isSome_iff_exists.mp htok
  have hutok := hok u humem
  rw [tokOk, if_neg (by simp [hum_not_temp u hup]), if_pos hup] at hutok
  obtain ⟨hf, hhf⟩ := Option.isSome_iff_exists.mp hutok
  have hT : ((toks s).foldl applyT {}).temperature = some tf := by
    rw [foldl_applyT_temperature]
    show (toks s).foldl tempStep none = some tf
    rw [heqT, htf]
  have hH : ((toks s).foldl applyT {}).humidity = some hf := by
    rw [foldl_applyT_humidity]
    show (toks s).foldl humStep none = some hf
    rw [heqH, hhf]
  refine ⟨tf, hf, (toks s).foldl applyT {},
    ⟨t, htmem, htp, htf⟩, ⟨u, humem, hup, hhf⟩, ?_, hT, hH⟩
  unfold parse_sensor_data
  rw [parseTokens_eq, if_pos (List.all_eq_true.mpr (by simpa using hok)), if_pos (by simp [hT, hH])]

/-- C2: a line in which no token starts with `TEMP:`, or no token starts
with `HUM:`, is rejected (`parse_sensor_data` returns `none`). -/
theorem C2_missing_key_rejected (s : String)
    (h : (∀ t ∈ toks s, isPfx tempPfx t = false) ∨ (∀ t ∈ toks s, isPfx humPfx t = false)) :
    parse_sensor_data s = none := by
  unfold parse_sensor_data
  rw [parseTokens_eq]
  by_cases hall : (toks s).all tokOk = true
  · rw [if_pos hall]
    rcases h with h | h
    · have hT : ((toks s).foldl applyT {}).temperature = none := by
        rw [foldl_applyT_temperature]
        exact foldl_tempStep_none _ _ h
      simp [hT]
    · have hH : ((toks s).foldl applyT {}).humidity = none := by
        rw [foldl_applyT_humidity]
        exact foldl_humStep_none _ _ h
      simp [hH]
  · simp [hall]

/-- C3: a single recognized-key token whose value part fails to convert
makes `parse_sensor_data` reject the whole line, whatever the other tokens
hold. -/
theorem C3_decode_failure_rejects (s : String) (t : List Char)
    (hmem : t ∈ toks s)
    (hbad : (isPfx tempPfx t = true ∧ pyFloat? (t.drop 5) = none) ∨
            (isPfx humPfx t = true ∧ pyFloat? (t.drop 4) = none) ∨
            (isPfx statusPfx t = true ∧ pyInt? (t.drop 7) = none)) :
    parse_sensor_data s = none := by
  have htok : tokOk t = false := by
    rcases hbad with ⟨hp, hv⟩ | ⟨hp, hv⟩ | ⟨hp, hv⟩
    · rw [tokOk, if_pos hp, hv]; rfl
    · rw [tokOk, if_neg (by simp [hum_not_temp t hp]), if_pos hp, hv]; rfl
    · rw [tokOk, if_neg (by simp [status_not_temp t hp]),
        if_neg (by simp [status_not_hum t hp]), if_pos hp, hv]
      rfl
  have hall : (toks s).all tokOk = false :=
    List.all_eq_false.mpr ⟨t, hmem, by simp [htok]⟩
  unfold parse_sensor_data
  rw [parseTokens_eq]
  simp [hall]

/-- Witness for C1 at the spec's Scenario 1 line
`"TEMP:23.5 HUM:60.2 STATUS:1"` (23.5 = 47/2, 60.2 = 301/5). -/
theorem C1_parse_exact_values_witness :
    parse_sensor_data "TEMP:23.5 HUM:60.2 STATUS:1" =
      some ⟨some ((47 : Rat)/2), some ((301 : Rat)/5), some 1⟩ ∧
    (∃ tf hf sd,
      (∃ t ∈ toks "TEMP:23.5 HUM:60.2 STATUS:1",
        isPfx tempPfx t = true ∧ pyFloat? (t.drop 5) = some tf) ∧
      (∃ t ∈ toks "TEMP:23.5 HUM:60.2 STATUS:1",
        isPfx humPfx t = true ∧ pyFloat? (t.drop 4) = some hf) ∧
      parse_sensor_data "TEMP:23.5 HUM:60.2 STATUS:1" = some sd ∧
      sd.temperature = some tf ∧ sd.humidity = some hf) :=
  ⟨by with_unfolding_all rfl,
   C1_parse_exact_values "TEMP:23.5 HUM:60.2 STATUS:1" (by decide) (by decide)
     (by with_unfolding_all decide)⟩

/-- Witness for C2 at the spec's Scenario 2 line `"HUM:60.2"`. -/
theorem C2_missing_key_rejected_witness :
    parse_sensor_data "HUM:60.2" = none :=
  C2_missing_key_rejected "HUM:60.2" (Or.inl (by decide))

/-- Witness for C3 at the spec's Scenario 3 line `"TEMP:abc HUM:60.2"`. -/
theorem C3_decode_failure_rejects_witness :
    parse_sensor_data "TEMP:abc HUM:60.2" = none :=
  C3_decode_failure_rejects "TEMP:abc HUM:60.2" ("TEMP:abc".data)
    (by decide) (Or.inl (by decide))

/-- C7: when a line parses to a Reading, each recognized key carries the
value of the last occurrence of that key in left-to-right token order. -/
theorem C7_last_occurrence_wins (s : String) (sd : SensorData)
    (pre post : List (List Char)) (t : List Char)
    (hsplit : toks s = pre ++ t :: post)
    (hparse : parse_sensor_data s = some sd) :
    (isPfx tempPfx t = true → (∀ u ∈ post, isPfx tempPfx u = false) →
      sd.temperature = pyFloat? (t.drop 5)) ∧
    (isPfx humPfx t = true → (∀ u ∈ post, isPfx humPfx u = false) →
      sd.humidity = pyFloat? (t.drop 4)) ∧
    (isPfx statusPfx t = true → (∀ u ∈ post, isPfx statusPfx u = false) →
      sd.status = pyInt? (t.drop 7)) := by
  have hsd : sd = (toks s).foldl applyT {} := by
    rw [parse_sensor_data, parseTokens_eq] at hparse
    split at hparse
    · split at hparse
      · exact (Option.some.inj hparse).symm
      · exact Option.noConfusion hparse
    · exact Option.noConfusion hparse
  refine ⟨?_, ?_, ?_⟩
  · intro hp hpost
    rw [hsd, foldl_applyT_temperature]
    show (toks s).foldl tempStep none = _
    rw [hsplit, List.foldl_append, List.foldl_cons,
      show tempStep (pre.foldl tempStep none) t = pyFloat? (t.drop 5) by
        simp [tempStep, hp]]
    exact foldl_tempStep_none post _ hpost
  · intro hp hpost
    rw [hsd, foldl_applyT_humidity]
    show (toks s).foldl humStep none = _
    rw [hsplit, List.foldl_append, List.foldl_cons,
      show humStep (pre.foldl humStep none) t = pyFloat? (t.drop 4) by
        simp [humStep, hp, hum_not_temp t hp]]
    exact foldl_humStep_none post _ hpost
  · intro hp hpost
    rw [hsd, foldl_applyT_status]
    show (toks s).foldl statusStep none = _
    rw [hsplit, List.foldl_append, List.foldl_cons,
      show statusStep (pre.foldl statusStep none) t = pyInt? (t.drop 7) by
        simp [statusStep, hp, status_not_temp t hp, status_not_hum t hp]]
    exact foldl_statusStep_none post _ hpost

/-- Witness for C7 on a line with duplicated `TEMP`, `HUM` and `STATUS`
keys: the Reading holds the last occurrence of each. -/
theorem C7_last_occurrence_wins_witness :
    parse_sensor_data "TEMP:1 TEMP:2.5 HUM:3 HUM:4 STATUS:7 STATUS:8" =
      some ⟨some ((5 : Rat)/2), some 4, some 8⟩ ∧
    (⟨some ((5 : Rat)/2), some 4, some 8⟩ : SensorData).temperature =
      pyFloat? (("TEMP:2.5".data).drop 5) :=
  ⟨by with_unfolding_all rfl,
   (C7_last_occurrence_wins "TEMP:1 TEMP:2.5 HUM:3 HUM:4 STATUS:7 STATUS:8"
      ⟨some ((5 : Rat)/2), some 4, some 8⟩
      ["TEMP:1".data] ["HUM:3".data, "HUM:4".data, "STATUS:7".data, "STATUS:8".data]
      ("TEMP:2.5".data) (by decide) (by with_unfolding_all rfl)).1
     (by decide) (by decide)⟩

/-- C8: `parse_sensor_data` is total — every conversion failure is captured
and becomes the `none` rejection, never an escaping exception (modelled by
the function landing in `Option`) — and any returned Reading holds both
required keys; the empty line is rejected. -/
theorem C8_total_no_escape :
    (∀ s : String, parse_sensor_data s = none ∨
      ∃ sd, parse_sensor_data s = some sd ∧
        sd.temperature.isSome = true ∧ sd.humidity.isSome = true) ∧
    parse_sensor_data "" = none := by
  constructor
  · intro s
    rw [parse_sensor_data, parseTokens_eq]
    by_cases hall : (toks s).all tokOk = true
    · rw [if_pos hall]
      by_cases hv : (((toks s).foldl applyT {}).temperature.isSome &&
          ((toks s).foldl applyT {}).humidity.isSome) = true
      · right
        have hv2 : ((toks s).foldl applyT {}).temperature.isSome = true ∧
            ((toks s).foldl applyT {}).humidity.isSome = true := by
          rw [← Bool.and_eq_true]
          exact hv
        exact ⟨_, by rw [if_pos hv], hv2.1, hv2.2⟩
      · left
        rw [if_neg hv]
    · left
      rw [if_neg hall]
  · decide

/-- C4: publishing a valid Reading sends exactly two messages — the
temperature topic then the humidity topic — both carrying the one timestamp
captured at entry, the Reading's values, and units `°C` and `%`. -/
theorem C4_two_publishes (sd : SensorData) (stamp : String) (tv hv : Rat)
    (ht : sd.temperature = some tv) (hh : sd.humidity = some hv) :
    publish_data sd stamp =
      [(MQTT_TOPIC_TEMP, ⟨tv, stamp, "°C"⟩), (MQTT_TOPIC_HUM, ⟨hv, stamp, "%"⟩)] := by
  unfold publish_data
  rw [ht, hh]

/-- Witness for C4 at a concrete valid Reading. -/
theorem C4_two_publishes_witness :
    publish_data ⟨some 1, some 2, some 3⟩ "2026-01-01T00:00:00" =
      [(MQTT_TOPIC_TEMP, ⟨1, "2026-01-01T00:00:00", "°C"⟩),
       (MQTT_TOPIC_HUM, ⟨2, "2026-01-01T00:00:00", "%"⟩)] :=
  C4_two_publishes ⟨some 1, some 2, some 3⟩ "2026-01-01T00:00:00" 1 2 rfl rfl

/-- C9: the status field never influences what `publish_data` emits: two
Readings agreeing on temperature and humidity (status arbitrary, possibly
absent) produce identical topic/payload lists, and no payload carries
status. -/
theorem C9_status_never_influences (sd1 sd2 : SensorData) (stamp : String)
    (ht : sd1.temperature = sd2.temperature) (hh : sd1.humidity = sd2.humidity) :
    publish_data sd1 stamp = publish_data sd2 stamp := by
  unfold publish_data
  rw [ht, hh]

/-- Witness for C9: same values, different status (one absent). -/
theorem C9_status_never_influences_witness :
    publish_data ⟨some 1, some 2, some 7⟩ "T" = publish_data ⟨some 1, some 2, none⟩ "T" :=
  C9_status_never_influences ⟨some 1, some 2, some 7⟩ ⟨some 1, some 2, none⟩ "T" rfl rfl

theorem cycleEvents_shape (c : CycleIn) :
    ∀ e ∈ cycleEvents c, e = Event.writeR ∨ ∃ tp pl, e = Event.pubJson tp pl := by
  intro e he
  unfold cycleEvents at he
  rcases List.mem_cons.mp he with rfl | he
  · exact Or.inl rfl
  · right
    split at he
    · simp at he
    · split at he
      · simp at he
      · simp only [List.mem_map] at he
        obtain ⟨m, _, rfl⟩ := he
        exact ⟨m.1, m.2, rfl⟩

theorem close_not_in_cycle (c : CycleIn) : Event.serialClose ∉ cycleEvents c := by
  intro h
  rcases cycleEvents_shape c _ h with h1 | ⟨tp, pl, h1⟩ <;> exact Event.noConfusion h1

theorem pollLoop_break (pre : List CycleIn) (c : CycleIn) (cs : List CycleIn)
    (hpre : ∀ x ∈ pre, x.interrupt = false) (hc : c.interrupt = true) :
    pollLoop (pre ++ c :: cs) = (pre.map cycleEvents).flatten ++ stopEvents := by
  induction pre with
  | nil => simp [pollLoop, hc]
  | cons p ps ih =>
    have hp := hpre p (by simp)
    rw [List.cons_append, pollLoop, if_neg (by simp [hp]),
      ih (fun x hx => hpre x (by simp [hx]))]
    simp [List.append_assoc]

/-- C5: when a shutdown request arrives during a cycle, the trace of `run`
is the setup events, the events of the completed cycles before it, and then
— immediately, before `run` returns — the `"offline"` status publish, the
MQTT disconnect, and exactly one serial close, in that order and as the
final events. -/
theorem C5_shutdown_order (pre : List CycleIn) (c : CycleIn) (cs : List CycleIn)
    (hpre : ∀ x ∈ pre, x.interrupt = false) (hc : c.interrupt = true) :
    run true true (pre ++ c :: cs) =
      Event.uartOpen :: Event.mqttConn ::
        ((pre.map cycleEvents).flatten ++
         [Event.pubText MQTT_TOPIC_STATUS "offline", Event.mqttDisc, Event.serialClose]) ∧
    (run true true (pre ++ c :: cs)).count Event.serialClose = 1 := by
  have hrun : run true true (pre ++ c :: cs) =
      Event.uartOpen :: Event.mqttConn :: ((pre.map cycleEvents).flatten ++ stopEvents) := by
    unfold run
    rw [pollLoop_break pre c cs hpre hc]
    rfl
  have hJ : ((pre.map cycleEvents).flatten).count Event.serialClose = 0 := by
    rw [List.count_eq_zero]
    intro hmem
    rw [List.mem_flatten] at hmem
    obtain ⟨l, hl, hml⟩ := hmem
    rw [List.mem_map] at hl
    obtain ⟨x, _, rfl⟩ := hl
    exact close_not_in_cycle x hml
  refine ⟨by rw [hrun]; rfl, ?_⟩
  rw [hrun]
  simp [List.count_cons, List.count_append, hJ, stopEvents]

/-- Witness for C5: a single cycle that receives the shutdown request. -/
theorem C5_shutdown_order_witness :
    run true true [⟨true, none, "t0"⟩] =
      Event.uartOpen :: Event.mqttConn ::
        ((([] : List CycleIn).map cycleEvents).flatten ++
         [Event.pubText MQTT_TOPIC_STATUS "offline", Event.mqttDisc, Event.serialClose]) ∧
    (run true true [⟨true, none, "t0"⟩]).count Event.serialClose = 1 :=
  C5_shutdown_order [] ⟨true, none, "t0"⟩ [] (by simp) rfl

/-- C6: if the serial open fails, `run` emits nothing — in particular it
never attempts the MQTT connect — and if the connect dispatch fails after a
successful open, `run` stops right after the two setup events, never
entering a polling cycle (no `R` request is ever written). -/
theorem C6_setup_gates_loop (mqttOk : Bool) (cs : List CycleIn) :
    run false mqttOk cs = [] ∧
    Event.mqttConn ∉ run false mqttOk cs ∧
    run true false cs = [Event.uartOpen, Event.mqttConn] ∧
    Event.writeR ∉ run true false cs := by
  have h1 : run false mqttOk cs = [] := rfl
  have h2 : run true false cs = [Event.uartOpen, Event.mqttConn] := rfl
  refine ⟨h1, ?_, h2, ?_⟩
  · rw [h1]
    simp
  · rw [h2]
    simp

/-- C10: key recognition is case-sensitive and includes the colon: a token
beginning with none of `TEMP:`, `HUM:`, `STATUS:` (such as bare `TEMP`,
`temp:20`, `TEMPERATURE:20`) leaves the scan state unchanged and can be
inserted anywhere without changing the parse result — it can never cause a
rejection. -/
theorem C10_unrecognized_ignored (t : List Char)
    (h1 : isPfx tempPfx t = false) (h2 : isPfx humPfx t = false)
    (h3 : isPfx statusPfx t = false) :
    (∀ sd, applyTok sd t = some sd) ∧
    (∀ ts1 ts2, parseTokens (ts1 ++ t :: ts2) = parseTokens (ts1 ++ ts2)) := by
  have htok : tokOk t = true := by
    rw [tokOk, if_neg (by simp [h1]), if_neg (by simp [h2]), if_neg (by simp [h3])]
  have happ : ∀ sd, applyT sd t = sd := by
    intro sd
    rw [applyT, if_neg (by simp [h1]), if_neg (by simp [h2]), if_neg (by simp [h3])]
  constructor
  · intro sd
    rw [applyTok_eq, if_pos htok, happ]
  · intro ts1 ts2
    unfold parseTokens
    rw [parseLoop_eq, parseLoop_eq]
    have hall : (ts1 ++ t :: ts2).all tokOk = (ts1 ++ ts2).all tokOk := by
      simp [List.all_append, List.all_cons, htok]
    have hfold : (ts1 ++ t :: ts2).foldl applyT {} = (ts1 ++ ts2).foldl applyT {} := by
      rw [List.foldl_append, List.foldl_append, List.foldl_cons, happ]
    rw [hall, hfold]

/-- Witness for C10: inserting `temp:20`, bare `TEMP`, or `TEMPERATURE:20`
between recognized tokens does not change the parse. -/
theorem C10_unrecognized_ignored_witness :
    parseTokens (["TEMP:1".data] ++ "temp:20".data :: ["HUM:2".data]) =
      parseTokens (["TEMP:1".data] ++ ["HUM:2".data]) ∧
    parseTokens (["TEMP:1".data] ++ "TEMP".data :: ["HUM:2".data]) =
      parseTokens (["TEMP:1".data] ++ ["HUM:2".data]) ∧
    parseTokens (["TEMP:1".data] ++ "TEMPERATURE:20".data :: ["HUM:2".data]) =
      parseTokens (["TEMP:1".data] ++ ["HUM:2".data]) :=
  ⟨(C10_unrecognized_ignored ("temp:20".data) (by decide) (by decide) (by decide)).2 _ _,
   (C10_unrecognized_ignored ("TEMP".data) (by decide) (by decide) (by decide)).2 _ _,
   (C10_unrecognized_ignored ("TEMPERATURE:20".data) (by decide) (by decide) (by decide)).2 _ _⟩
